import Mathlib

/-!
# Verification of the okta Go client (src/okta.go)

A shallow embedding of the request/response pipeline of the okta client
library: `buildURL`, `New`, `addOptions`, `AddAuthorization`, `NewRequest`,
`Do` and `checkResponse`, together with proofs of the spec's claims about
them.

Modelling conventions:
- Go strings are Lean `String`s; Go `int`/`int64` status codes are `Int`.
- A response body is not a stream but the outcome of reading it to the end:
  either all its bytes (as a `String`) or an I/O failure that occurred
  mid-read together with the bytes delivered before the failure.
- Go `error` results are `Option GoError` (`none` = nil error).
- Library calls (`net/url.Parse`, `net/http.StatusText`, `fmt.Sprintf`,
  `encoding/json`) are modelled by explicit Lean functions restricted to the
  shapes this client uses; each carries a comment saying what it models.
-/

set_option autoImplicit false

namespace Okta

/-- Go `fmt.Sprintf` restricted to format strings whose only verb is `%s`
(the only use in the source); every `%s` in the format is replaced by the
argument. -/
def sprintfChars (arg : List Char) : List Char → List Char
  | [] => []
  | '%' :: 's' :: rest => arg ++ sprintfChars arg rest
  | c :: rest => c :: sprintfChars arg rest

/-- `fmt.Sprintf(format, arg)` for a single string argument. -/
def sprintf1 (format arg : String) : String :=
  ⟨sprintfChars arg.data format.data⟩

/-- The `baseURL` template constant from the source. -/
def baseURLTemplate : String := "https://%s.okta.com/"

/-- `buildURL(baseURL, args...)` from the source: `fmt.Sprintf(baseURL, args...)`,
always applied to a single string argument. -/
def buildURL (base : String) (arg : String) : String :=
  sprintf1 base arg

/-- Parsed URL, the fields of `net/url.URL` that this client touches. -/
structure URL where
  scheme : String
  host : String
  path : String
  rawQuery : String
  deriving DecidableEq, Repr

/-- Does `pre` occur at the head of `l`? -/
def charsHavePre : List Char → List Char → Bool
  | [], _ => true
  | _ :: _, [] => false
  | c :: cs, d :: ds => c == d && charsHavePre cs ds

/-- Split a char list at the first `/` (host part, path-and-after part). -/
def splitHostPath : List Char → List Char × List Char
  | [] => ([], [])
  | '/' :: rest => ([], '/' :: rest)
  | c :: rest =>
    let hp := splitHostPath rest
    (c :: hp.1, hp.2)

/-- Is some character of `l` an ASCII control character? -/
def hasCtlChar (l : List Char) : Bool :=
  l.any (fun c => c.toNat < 32 || c.toNat == 127)

/-- Model of `net/url.Parse` restricted to the inputs this client produces:
absolute `http(s)` URLs and scheme-less relative references. Like the Go
function it rejects control characters anywhere and a space inside a host
name, and it is lenient about everything else. -/
def urlParse (s : String) : Except String URL :=
  let l := s.data
  if hasCtlChar l then
    .error "net/url: invalid control character in URL"
  else if charsHavePre "https://".data l then
    let rest := l.drop 8
    let hp := splitHostPath rest
    if hp.1.any (fun c => c == ' ') then
      .error "invalid character in host name"
    else
      .ok { scheme := "https", host := ⟨hp.1⟩, path := ⟨hp.2⟩, rawQuery := "" }
  else if charsHavePre "http://".data l then
    let rest := l.drop 7
    let hp := splitHostPath rest
    if hp.1.any (fun c => c == ' ') then
      .error "invalid character in host name"
    else
      .ok { scheme := "http", host := ⟨hp.1⟩, path := ⟨hp.2⟩, rawQuery := "" }
  else
    .ok { scheme := "", host := "", path := s, rawQuery := "" }

/-- Model of `(*url.URL).String()` for the URLs built here. -/
def urlString (u : URL) : String :=
  (if u.scheme ≠ "" then u.scheme ++ "://" ++ u.host else "") ++ u.path ++
    (if u.rawQuery ≠ "" then "?" ++ u.rawQuery else "")

/-- Model of RFC 3986 reference resolution (`(*url.URL).ResolveReference`)
for the references this client resolves: an absolute reference replaces the
base; otherwise scheme and host come from the base and the path is the
reference's path, taken from the root when it is rooted and otherwise merged
onto the base path's directory. -/
def resolveReference (base ref : URL) : URL :=
  if ref.scheme ≠ "" then ref
  else
    { scheme := base.scheme
      host := base.host
      path :=
        if ref.path.data.head? = some '/' then ref.path
        else ⟨(base.path.data.reverse.dropWhile (fun c => c ≠ '/')).reverse ++ ref.path.data⟩
      rawQuery := ref.rawQuery }

/-- Header set of a request, as a list of (canonical key, value) pairs;
`Set` semantics is replace-existing. -/
def Headers : Type := List (String × String)

instance : DecidableEq Headers := by
  unfold Headers
  infer_instance

instance : Repr Headers := by
  unfold Headers
  infer_instance

/-- Model of `http.Header.Set`: replaces any existing value for the key. -/
def headerSet (h : Headers) (key value : String) : Headers :=
  (key, value) :: List.filter (fun p => p.1 != key) h

/-- Model of `http.Header.Get`. -/
def headerGet (h : Headers) (key : String) : Option String :=
  (List.find? (fun p => p.1 == key) h).map Prod.snd

/-- Outcome of reading an HTTP response body to the end: either all of its
bytes, or an I/O failure hit mid-read, recording the bytes that were
delivered before the failure and the error. -/
inductive BodyResult where
  | ok (data : String)
  | ioError (readSoFar : String) (e : String)
  deriving DecidableEq, Repr

/-- The parts of `*http.Response` this client reads. -/
structure HttpResponse where
  statusCode : Int
  body : BodyResult
  deriving DecidableEq, Repr

/-- The `Response` type of the source: it embeds the raw `*http.Response`. -/
structure Response where
  response : HttpResponse
  deriving DecidableEq, Repr

/-- `newResponse` from the source. -/
def newResponse (resp : HttpResponse) : Response :=
  { response := resp }

/-- The `ErrorResponse` type of the source. -/
structure ErrorResponse where
  response : HttpResponse
  code : Int := 0
  type : String := ""
  message : String := ""
  deriving DecidableEq, Repr

/-- The Go `error` values the pipeline can return. Distinct constructors
model distinct dynamic error types. `nilPanic` models a nil-pointer
dereference panic (not a returned error, but the only way the model can
report one). -/
inductive GoError where
  | ioEOF
  | ioErr (e : String)
  | syntaxErr (e : String)
  | errorResponse (er : ErrorResponse)
  | ctxErr (e : String)
  | transportErr (e : String)
  | urlErr (e : String)
  | encErr (e : String)
  | nilPanic
  deriving DecidableEq, Repr

/-- Model of `net/http.StatusText`, restricted to common codes; an unknown
code yields `""` exactly as in Go. -/
def statusText (code : Int) : String :=
  if code = 200 then "OK"
  else if code = 201 then "Created"
  else if code = 202 then "Accepted"
  else if code = 204 then "No Content"
  else if code = 400 then "Bad Request"
  else if code = 401 then "Unauthorized"
  else if code = 403 then "Forbidden"
  else if code = 404 then "Not Found"
  else if code = 429 then "Too Many Requests"
  else if code = 500 then "Internal Server Error"
  else ""

/-- `checkResponse` from the source: 2xx statuses are successes (nil error);
any other status yields an `ErrorResponse`. The body is read with
`ioutil.ReadAll`; only when that read succeeds (`err == nil && data != nil`,
and `ReadAll` never returns a nil slice on success) are `Code`, `Type` and
`Message` filled in. A failed read leaves them at their zero values and the
read error itself is dropped. -/
def checkResponse (r : HttpResponse) : Option GoError :=
  if 200 ≤ r.statusCode ∧ r.statusCode ≤ 299 then
    none
  else
    let errorResponse : ErrorResponse := { response := r }
    match r.body with
    | .ok data =>
      some (.errorResponse
        { errorResponse with
            code := r.statusCode
            type := statusText r.statusCode
            message := data })
    | .ioError _ _ =>
      some (.errorResponse errorResponse)

/-- The `Client` struct of the source: the configuration fields the
pipeline reads. `baseURL` is an `Option` because the Go field is a pointer
that `New` leaves nil when `url.Parse` fails. The `http.Client`, the reused
`service` struct and the per-resource services carry no data the pipeline
reads and are not modelled. -/
structure Client where
  baseURL : Option URL
  organisation : String
  apiToken : String
  userAgent : String := ""
  deriving DecidableEq, Repr

/-- `New` from the source. It always returns a client; the error of
`url.Parse(buildURL(baseURL, organisation))` is discarded (`c.BaseURL, _ =
url.Parse(...)`), leaving `BaseURL` nil when the string is not a valid
URL. -/
def New (apiToken organisation : String) : Client :=
  { baseURL := (urlParse (buildURL baseURLTemplate organisation)).toOption
    organisation := organisation
    apiToken := apiToken
    userAgent := "" }

/-- A Go `interface{}` value passed as the `opt` of `addOptions`:
either a typed-nil pointer (`v.Kind() == reflect.Ptr && v.IsNil()`) or a
non-nil pointer to a struct value of type `β`. -/
inductive GoOptValue (β : Type) where
  | nilPtr
  | ptrTo (v : β)

/-- Model of `url.Values.Encode` for the claim set: keys joined as
`k=v` pairs with `&`. (The Go function percent-escapes and sorts keys;
no claim depends on either, so the pair list is rendered in order.) -/
def encodeQuery (kvs : List (String × String)) : String :=
  String.intercalate "&" (kvs.map (fun p => p.1 ++ "=" ++ p.2))

/-- `addOptions` from the source. `queryValues` stands for
`query.Values` of github.com/google/go-querystring, reflecting over the
struct behind `opt`; it is a parameter because its behaviour depends on the
concrete struct type. A typed-nil `opt` returns `s` unchanged with nil
error before anything else runs. -/
def addOptions {β : Type} (queryValues : β → Except String (List (String × String)))
    (s : String) (opt : GoOptValue β) : String × Option GoError :=
  match opt with
  | .nilPtr => (s, none)
  | .ptrTo v =>
    match urlParse s with
    | .error e => (s, some (.urlErr e))
    | .ok u =>
      match queryValues v with
      | .error e => (s, some (.encErr e))
      | .ok qs => (urlString { u with rawQuery := encodeQuery qs }, none)

/-- An outbound `*http.Request`: the fields this client sets or reads.
`body` is the serialized payload (`nil` when no body was supplied). -/
structure Request where
  method : String
  url : String
  headers : Headers
  body : Option String
  deriving DecidableEq, Repr

/-- `AddAuthorization` from the source: when `apiToken` is non-empty it
sets `Authorization: SSWS <token>` (via `fmt.Sprintf("SSWS %s", ...)`),
otherwise it leaves the request untouched; the returned error is always
nil. (The `ctx` parameter is unused by the source and omitted.) -/
def AddAuthorization (c : Client) (req : Request) : Request × Option GoError :=
  if c.apiToken ≠ "" then
    ({ req with headers := headerSet req.headers "Authorization" (sprintf1 "SSWS %s" c.apiToken) },
      none)
  else
    (req, none)

/-- `NewRequest` from the source. `enc` stands for
`json.NewEncoder(buf).Encode` on the concrete body type `β`. A nil
`c.BaseURL` makes `c.BaseURL.ResolveReference(rel)` panic in Go; the model
reports that as `GoError.nilPanic`. -/
def NewRequest {β : Type} (enc : β → Except String String) (c : Client)
    (method urlStr : String) (body : Option β) : Except GoError Request :=
  match urlParse urlStr with
  | .error e => .error (.urlErr e)
  | .ok rel =>
    match c.baseURL with
    | none => .error .nilPanic
    | some base =>
      let u := resolveReference base rel
      match (match body with
             | none => Except.ok (none : Option String)
             | some b => (enc b).map some) with
      | .error e => .error (.encErr e)
      | .ok buf =>
        let req : Request := { method := method, url := urlString u, headers := [], body := buf }
        let req :=
          if buf.isSome then
            { req with headers := headerSet req.headers "Content-Type" "application/json" }
          else req
        let req := { req with headers := headerSet req.headers "Accept" "application/json" }
        let req :=
          if c.userAgent ≠ "" then
            { req with headers := headerSet req.headers "User-Agent" c.userAgent }
          else req
        .ok req

/-- The caller-supplied destination `v` of `Do`: nil, an `io.Writer`
(modelled as the string written so far), or a value to JSON-decode into. -/
inductive Dest (α : Type) where
  | nil
  | writer (written : String)
  | value (v : α)
  deriving DecidableEq, Repr

/-- The context passed to `Do`: whether `ctx.Done()` is closed at the time
the transport call returns, and the message of `ctx.Err()` then
("context canceled" or "context deadline exceeded"). -/
structure Context where
  done : Bool
  errMsg : String
  deriving DecidableEq, Repr

/-- Outcome of the underlying transport call `c.client.Do(req)`. -/
inductive TransportResult where
  | success (resp : HttpResponse)
  | failure (e : String)

/-- Outcome of scanning a char list for one JSON value, as
`encoding/json`'s streaming scanner does over buffered bytes. -/
inductive Scan where
  | done (rest : List Char)
  | more
  | bad
  deriving DecidableEq, Repr

/-- Skip JSON whitespace. -/
def skipWs : List Char → List Char
  | c :: rest =>
    if c == ' ' || c == '\t' || c == '\n' || c == '\r' then skipWs rest else c :: rest
  | [] => []

/-- Scan the tail of a fixed literal (`true`/`false`/`null`). -/
def scanLit : List Char → List Char → Scan
  | [], rest => .done rest
  | _ :: _, [] => .more
  | e :: es, c :: cs => if c == e then scanLit es cs else .bad

/-- Scan the tail of a JSON string (after the opening quote). -/
def scanStr : List Char → Scan
  | [] => .more
  | '"' :: rest => .done rest
  | '\\' :: [] => .more
  | '\\' :: _ :: rest => scanStr rest
  | _ :: rest => scanStr rest

/-- A character that may continue a JSON number token. -/
def isNumChar (c : Char) : Bool :=
  c.isDigit || c == '-' || c == '+' || c == '.' || c == 'e' || c == 'E'

/-- Scan the tail of a JSON number: like the streaming scanner, a number is
complete only once a non-number character follows it; at end of input more
bytes are needed. -/
def scanNum : List Char → Scan
  | [] => .more
  | c :: rest => if isNumChar c then scanNum rest else .done (c :: rest)

mutual

/-- Scan one JSON value. `fuel` only bounds the mutual recursion; callers
pass more fuel than the input length so it never runs out. -/
def scanVal : Nat → List Char → Scan
  | 0, _ => .more
  | _ + 1, [] => .more
  | fuel + 1, c :: rest =>
    if c == 't' then scanLit ['r', 'u', 'e'] rest
    else if c == 'f' then scanLit ['a', 'l', 's', 'e'] rest
    else if c == 'n' then scanLit ['u', 'l', 'l'] rest
    else if c == '"' then scanStr rest
    else if c.isDigit || c == '-' then scanNum rest
    else if c == '{' then scanObjBody fuel (skipWs rest) true
    else if c == '[' then scanArrBody fuel (skipWs rest) true
    else .bad

/-- Scan an object body after `{` (or after a `,`): a closing `}` (only
before the first member), or a `"key": value` member followed by `,` or
`}`. -/
def scanObjBody : Nat → List Char → Bool → Scan
  | 0, _, _ => .more
  | _ + 1, [], _ => .more
  | fuel + 1, c :: rest, first =>
    if c == '}' && first then .done rest
    else if c == '"' then
      match scanStr rest with
      | .done rest2 =>
        match skipWs rest2 with
        | [] => .more
        | c2 :: rest3 =>
          if c2 == ':' then
            match scanVal fuel (skipWs rest3) with
            | .done rest4 =>
              match skipWs rest4 with
              | [] => .more
              | c3 :: rest5 =>
                if c3 == ',' then scanObjBody fuel (skipWs rest5) false
                else if c3 == '}' then .done rest5
                else .bad
            | r => r
          else .bad
      | r => r
    else .bad

/-- Scan an array body after `[` (or after a `,`): a closing `]` (only
before the first element), or an element followed by `,` or `]`. -/
def scanArrBody : Nat → List Char → Bool → Scan
  | 0, _, _ => .more
  | _ + 1, [], _ => .more
  | fuel + 1, c :: rest, first =>
    if c == ']' && first then .done rest
    else
      match scanVal fuel (c :: rest) with
      | .done rest2 =>
        match skipWs rest2 with
        | [] => .more
        | c2 :: rest3 =>
          if c2 == ',' then scanArrBody fuel (skipWs rest3) false
          else if c2 == ']' then .done rest3
          else .bad
      | r => r

end

/-- Classification of a buffered prefix of a JSON stream, as
`encoding/json`'s `Decoder` sees it: it holds a complete value (whose text
is `consumed`), it is a valid but incomplete prefix needing more input, or
it can never start a JSON value. -/
inductive PrefixClass where
  | complete (consumed : String)
  | incomplete
  | invalid
  deriving DecidableEq, Repr

/-- Classify the buffered bytes `s` by scanning for one JSON value with
ample fuel. -/
def classifyJsonPre (s : String) : PrefixClass :=
  let l := skipWs s.data
  match scanVal (2 * l.length + 2) l with
  | .done rest => .complete ⟨l.take (l.length - rest.length)⟩
  | .more => .incomplete
  | .bad => .invalid

/-- Model of `json.NewDecoder(resp.Body).Decode(v)`: an empty body yields
`io.EOF` with `v` untouched; on a fully read body, `dec` (decoding at the
concrete type `α`) decides between a decoded value and a decode error
(syntax or unmarshal-type, one constructor here). On a body whose read
fails mid-way the decoder scans the buffered bytes *before* consulting the
read error: a complete buffered value decodes normally and the pending
read error is never observed by this call; an invalid prefix yields a
`SyntaxError`; only a valid-but-incomplete prefix makes the refill hit the
read error, which is then surfaced as-is (`e` is a non-EOF I/O error). -/
def jsonDecode {α : Type} (dec : String → Except String α) (body : BodyResult) (v : α) :
    α × Option GoError :=
  match body with
  | .ok data =>
    if data = "" then (v, some .ioEOF)
    else
      match dec data with
      | .ok w => (w, none)
      | .error e => (v, some (.syntaxErr e))
  | .ioError readSoFar e =>
    match classifyJsonPre readSoFar with
    | .complete consumed =>
      match dec consumed with
      | .ok w => (w, none)
      | .error e2 => (v, some (.syntaxErr e2))
    | .incomplete => (v, some (.ioErr e))
    | .invalid => (v, some (.syntaxErr "invalid character"))

/-- The headers `Do` sets on the request before dispatch (source lines
102–103): `Accept` and `Content-Type` are both set unconditionally. -/
def doOutbound (req : Request) : Request :=
  { req with
      headers := headerSet (headerSet req.headers "Accept" "application/json")
        "Content-Type" "application/json" }

/-- `Do` from the source. `transport` stands for `c.client.Do`; `dec` for
JSON decoding at the destination type (see `jsonDecode`). Returns the
`*Response` (nil on transport failure), the error, and the final
destination state. The deferred bounded drain-and-close of the body is
resource cleanup with no effect observable in this model. -/
def Do {α : Type} (dec : String → Except String α) (transport : Request → TransportResult)
    (ctx : Context) (req : Request) (v : Dest α) :
    Option Response × Option GoError × Dest α :=
  let req := doOutbound req
  match transport req with
  | .failure e =>
    -- If we got an error and the context has been canceled, return ctx.Err().
    if ctx.done then (none, some (.ctxErr ctx.errMsg), v)
    else (none, some (.transportErr e), v)
  | .success resp =>
    let response := newResponse resp
    match checkResponse resp with
    | some er =>
      -- even though there was an error, we still return the response
      (some response, some er, v)
    | none =>
      match v with
      | .nil => (some response, none, v)
      | .writer written =>
        -- io.Copy(w, resp.Body): both return values are discarded
        let copied :=
          match resp.body with
          | .ok data => data
          | .ioError readSoFar _ => readSoFar
        (some response, none, .writer (written ++ copied))
      | .value a =>
        let r := jsonDecode dec resp.body a
        let err :=
          match r.2 with
          | some .ioEOF => none -- ignore EOF caused by an empty response body
          | e => e
        (some response, err, .value r.1)

/-! ## Helper lemmas -/

theorem sprintf1_ssws (t : String) : sprintf1 "SSWS %s" t = "SSWS " ++ t := by
  obtain ⟨d⟩ := t
  show String.mk (sprintfChars d "SSWS %s".data) = _
  simp [sprintfChars, String.append]
  rfl

theorem headerGet_headerSet_self (h : Headers) (k v : String) :
    headerGet (headerSet h k v) k = some v := by
  simp [headerGet, headerSet, List.find?]

theorem find?_filter_ne (l : List (String × String)) (k k' : String) (hne : k' ≠ k) :
    List.find? (fun p => p.1 == k') (List.filter (fun p => p.1 != k) l) =
      List.find? (fun p => p.1 == k') l := by
  induction l with
  | nil => rfl
  | cons p t ih =>
    by_cases hq : p.1 = k
    · have hp : (p.1 == k') = false := by
        rw [beq_eq_false_iff_ne]
        exact fun hh => hne (hh.symm.trans hq)
      have hqq : (p.1 != k) = false := by simp [hq]
      simp [List.filter_cons, List.find?, hp, hqq, ih]
    · have hqq : (p.1 != k) = true := by simp [hq]
      by_cases hp : p.1 = k'
      · have hpb : (p.1 == k') = true := by simp [hp]
        simp [List.filter_cons, List.find?, hqq, hpb]
      · have hpb : (p.1 == k') = false := by simp [hp]
        simp [List.filter_cons, List.find?, hqq, hpb, ih]

theorem headerGet_headerSet_other (h : Headers) (k k' v : String) (hne : k' ≠ k) :
    headerGet (headerSet h k v) k' = headerGet h k' := by
  have hkk : ¬(k == k') = true := by
    simpa [beq_iff_eq] using fun hh => hne hh.symm
  simp [headerGet, headerSet, List.find?, hkk, find?_filter_ne h k k' hne]

/-! ## Concrete fixtures used by witnesses and counterexamples -/

/-- A client built as in the spec's scenario: token `tok123`, organisation `acme`. -/
def clientAcme : Client := New "tok123" "acme"

/-- Trivial JSON body encoder at type `Unit`. -/
def encUnit : Unit → Except String String := fun _ => .ok "{}"

/-- Trivial JSON decoder at type `String` (the raw body). -/
def decId : String → Except String String := fun s => .ok s

/-- A bare request, as produced by `NewRequest` before `Do` touches it. -/
def reqBare : Request :=
  { method := "GET", url := "https://acme.okta.com/users/42", headers := [], body := none }

/-- The request `NewRequest` builds for `GET users/42` with no body. -/
def reqUsers : Request :=
  ((NewRequest encUnit clientAcme "GET" "users/42" none).toOption).getD
    { method := "", url := "", headers := [], body := none }

/-- A 404 response whose body read fails at the very start. -/
def respBrokenNF : HttpResponse :=
  { statusCode := 404, body := .ioError "" "read: connection reset" }

/-- A 204 response with an empty body. -/
def resp204 : HttpResponse := { statusCode := 204, body := .ok "" }

/-- A transport stub that always fails at the connection level. -/
def transportFail : Request → TransportResult :=
  fun _ => .failure "read: connection reset by peer"

/-- A transport stub that always returns `resp204`. -/
def transport204 : Request → TransportResult := fun _ => .success resp204

/-- A context that was cancelled before the transport call returned. -/
def ctxCanceled : Context := { done := true, errMsg := "context canceled" }

/-- A context that is still live. -/
def ctxLive : Context := { done := false, errMsg := "" }

/-! ## Claims -/

/-- C1 (counterexample): the claim "for any other `c` it returns a non-null
error value whose Code field equals `c`" is false when the body read fails:
for a 404 response whose body read fails, `checkResponse` returns a non-nil
`ErrorResponse` whose `Code` is `0`, not `404`. -/
theorem checkResponse_C1_counterexample :
    checkResponse respBrokenNF =
      some (.errorResponse { response := respBrokenNF, code := 0, type := "", message := "" }) ∧
    (0 : Int) ≠ 404 := by
  exact ⟨rfl, by decide⟩

/-- C1 (amended): `checkResponse` returns a nil error iff the status code
`c` satisfies `200 ≤ c ≤ 299`; for any other `c` it returns a non-null
`ErrorResponse`, whose `Code` field equals `c` provided the body read
succeeded. -/
theorem checkResponse_C1_classification (r : HttpResponse) :
    (checkResponse r = none ↔ 200 ≤ r.statusCode ∧ r.statusCode ≤ 299) ∧
    (∀ data, r.body = .ok data → ¬(200 ≤ r.statusCode ∧ r.statusCode ≤ 299) →
      checkResponse r = some (.errorResponse
        { response := r, code := r.statusCode, type := statusText r.statusCode,
          message := data })) := by
  constructor
  · by_cases h : 200 ≤ r.statusCode ∧ r.statusCode ≤ 299
    · simp [checkResponse, h]
    · simp only [checkResponse, if_neg h]
      cases r.body <;> simp [h]
  · intro data hb h
    simp [checkResponse, if_neg h, hb]

/-- C1 (witness): a 404 response with readable body `nf` yields an
`ErrorResponse` with `Code = 404`, `Type = "Not Found"`, `Message = "nf"`. -/
theorem checkResponse_C1_classification_witness :
    checkResponse { statusCode := 404, body := .ok "nf" } =
      some (.errorResponse
        { response := { statusCode := 404, body := .ok "nf" }, code := 404,
          type := "Not Found", message := "nf" }) :=
  (checkResponse_C1_classification { statusCode := 404, body := .ok "nf" }).2 "nf" rfl (by decide)

/-- C2: when the transport call fails and the context is already done, `Do`
returns the context's termination error, which is never a raw transport
error. -/
theorem Do_C2_context_error_precedence {α : Type} (dec : String → Except String α)
    (transport : Request → TransportResult) (ctx : Context) (req : Request) (v : Dest α)
    (e : String) (hfail : transport (doOutbound req) = .failure e) (hdone : ctx.done = true) :
    Do dec transport ctx req v = (none, some (.ctxErr ctx.errMsg), v) ∧
    ∀ e2, (GoError.ctxErr ctx.errMsg) ≠ .transportErr e2 := by
  constructor
  · simp [Do, hfail, hdone]
  · intro e2 hh
    exact GoError.noConfusion hh

/-- C2 (witness): a cancelled context and a connection-reset transport
failure yield `ctxErr "context canceled"`, not the transport error. -/
theorem Do_C2_context_error_precedence_witness :
    Do decId transportFail ctxCanceled reqBare (Dest.nil : Dest String) =
      (none, some (.ctxErr "context canceled"), Dest.nil) :=
  (Do_C2_context_error_precedence decId transportFail ctxCanceled reqBare Dest.nil
    "read: connection reset by peer" rfl rfl).1

/-- C3: a dispatched request that receives a non-2xx response makes `Do`
return a non-null `Response` (namely `newResponse resp`) paired with a
non-null `ErrorResponse` error, with the destination untouched. -/
theorem Do_C3_response_paired_with_error {α : Type} (dec : String → Except String α)
    (transport : Request → TransportResult) (ctx : Context) (req : Request) (v : Dest α)
    (resp : HttpResponse) (hresp : transport (doOutbound req) = .success resp)
    (hstatus : ¬(200 ≤ resp.statusCode ∧ resp.statusCode ≤ 299)) :
    ∃ er : ErrorResponse,
      Do dec transport ctx req v = (some (newResponse resp), some (.errorResponse er), v) := by
  cases hb : resp.body with
  | ok data =>
    refine ⟨ErrorResponse.mk resp resp.statusCode (statusText resp.statusCode) data, ?_⟩
    simp [Do, hresp, checkResponse, if_neg hstatus, hb]
  | ioError readSoFar e =>
    refine ⟨ErrorResponse.mk resp 0 "" "", ?_⟩
    simp [Do, hresp, checkResponse, if_neg hstatus, hb]

/-- C3 (witness): a 404 response is returned as a non-null `Response`
together with a non-null error. -/
theorem Do_C3_response_paired_with_error_witness :
    ∃ er : ErrorResponse,
      Do decId (fun _ => .success respBrokenNF) ctxLive reqBare (Dest.nil : Dest String) =
        (some (newResponse respBrokenNF), some (.errorResponse er), Dest.nil) :=
  Do_C3_response_paired_with_error decId (fun _ => .success respBrokenNF) ctxLive reqBare
    Dest.nil respBrokenNF rfl (by decide)

/-- C4: for every path `s` and a typed-nil params pointer, `addOptions`
returns `s` unchanged with a nil error, whatever the query encoder at the
params type does. -/
theorem addOptions_C4_nil_identity {β : Type}
    (queryValues : β → Except String (List (String × String))) (s : String) :
    addOptions queryValues s GoOptValue.nilPtr = (s, none) :=
  rfl

theorem doOutbound_sets_both_headers (req : Request) :
    headerGet (doOutbound req).headers "Accept" = some "application/json" ∧
    headerGet (doOutbound req).headers "Content-Type" = some "application/json" := by
  constructor
  · exact (headerGet_headerSet_other _ _ _ _ (by decide)).trans (headerGet_headerSet_self _ _ _)
  · exact headerGet_headerSet_self _ _ _

/-- C5 (counterexample): the claim "a bodiless request carries no
Content-Type header" is false for dispatched requests: the request
`NewRequest` builds for `GET users/42` with no body has no Content-Type
header, but `Do` sets `Content-Type: application/json` on it
unconditionally before dispatch. -/
theorem Do_C5_counterexample_bodiless_content_type :
    NewRequest encUnit clientAcme "GET" "users/42" none = .ok reqUsers ∧
    reqUsers.body = none ∧
    headerGet reqUsers.headers "Content-Type" = none ∧
    headerGet (doOutbound reqUsers).headers "Content-Type" = some "application/json" :=
  ⟨rfl, rfl, rfl, rfl⟩

/-- C5 (amended): every request built by `NewRequest` carries
`Accept: application/json` and carries `Content-Type: application/json`
exactly when a non-null body was supplied; but `Do` additionally sets both
`Accept` and `Content-Type` unconditionally before dispatch, so every
dispatched request — bodiless or not — carries
`Content-Type: application/json`. -/
theorem NewRequest_C5_headers {β : Type} (enc : β → Except String String) (c : Client)
    (method urlStr : String) (body : Option β) (req : Request)
    (h : NewRequest enc c method urlStr body = .ok req) :
    headerGet req.headers "Accept" = some "application/json" ∧
    (headerGet req.headers "Content-Type" = some "application/json" ↔ body.isSome = true) ∧
    headerGet (doOutbound req).headers "Accept" = some "application/json" ∧
    headerGet (doOutbound req).headers "Content-Type" = some "application/json" := by
  cases hP : urlParse urlStr with
  | error e => simp [NewRequest, hP] at h
  | ok rel =>
    cases hB : c.baseURL with
    | none => simp [NewRequest, hP, hB] at h
    | some base =>
      cases body with
      | none =>
        by_cases hU : c.userAgent = "" <;>
          · simp [NewRequest, hP, hB, hU] at h
            subst h
            simp [doOutbound, headerGet, headerSet, List.find?, List.filter]
      | some b =>
        cases hE : enc b with
        | error e => simp [NewRequest, hP, hB, hE, Except.map] at h
        | ok payload =>
          by_cases hU : c.userAgent = "" <;>
            · simp [NewRequest, hP, hB, hE, hU, Except.map] at h
              subst h
              simp [doOutbound, headerGet, headerSet, List.find?, List.filter]

/-- C5 (witness): the concrete bodiless `GET users/42` request carries
`Accept` but not `Content-Type`, and carries both after `Do`'s header
pass. -/
theorem NewRequest_C5_headers_witness :
    headerGet reqUsers.headers "Accept" = some "application/json" ∧
    (headerGet reqUsers.headers "Content-Type" = some "application/json" ↔
      (none : Option Unit).isSome = true) ∧
    headerGet (doOutbound reqUsers).headers "Accept" = some "application/json" ∧
    headerGet (doOutbound reqUsers).headers "Content-Type" = some "application/json" :=
  NewRequest_C5_headers encUnit clientAcme "GET" "users/42" none reqUsers rfl

/-- C6 (counterexample): the claim that a URL-parse failure "is propagated
to the caller as a construction-time error rather than silently swallowed"
is false: for organisation `"acme corp"` the built string is not a valid
URL, yet `New` returns a normal client — the parse error is discarded and
`BaseURL` is silently left nil. -/
theorem New_C6_counterexample_swallowed_parse_error :
    (urlParse (buildURL baseURLTemplate "acme corp")).toOption = none ∧
    New "tok123" "acme corp" =
      { baseURL := none, organisation := "acme corp", apiToken := "tok123", userAgent := "" } :=
  ⟨rfl, rfl⟩

/-- C6 (amended): `New` builds the base origin by substituting the
organisation into the fixed template; it never fails — the `url.Parse`
error is discarded, `BaseURL` is left nil when the string is not a valid
URL and is the parsed origin when it is, and the token and organisation are
stored regardless. -/
theorem New_C6_never_fails (apiToken organisation : String) :
    (New apiToken organisation).baseURL =
      (urlParse (buildURL baseURLTemplate organisation)).toOption ∧
    (New apiToken organisation).apiToken = apiToken ∧
    (New apiToken organisation).organisation = organisation ∧
    ∀ u, urlParse (buildURL baseURLTemplate organisation) = .ok u →
      (New apiToken organisation).baseURL = some u := by
  refine ⟨rfl, rfl, rfl, ?_⟩
  intro u hu
  simp [New, hu, Except.toOption]

/-- C6 (witness): for organisation `acme` the stored base origin is the
parsed `https://acme.okta.com/`. -/
theorem New_C6_never_fails_witness :
    (New "tok123" "acme").baseURL =
      some { scheme := "https", host := "acme.okta.com", path := "/", rawQuery := "" } :=
  (New_C6_never_fails "tok123" "acme").2.2.2
    { scheme := "https", host := "acme.okta.com", path := "/", rawQuery := "" } rfl

/-- C7: a 2xx response with an empty (successfully read) body and a
non-null, non-writer destination makes `Do` return a nil error and leave
the destination value unmodified — the decoder's `io.EOF` is swallowed. -/
theorem Do_C7_empty_body_identity {α : Type} (dec : String → Except String α)
    (transport : Request → TransportResult) (ctx : Context) (req : Request) (a : α)
    (resp : HttpResponse) (hresp : transport (doOutbound req) = .success resp)
    (h2xx : 200 ≤ resp.statusCode ∧ resp.statusCode ≤ 299) (hbody : resp.body = .ok "") :
    Do dec transport ctx req (Dest.value a) = (some (newResponse resp), none, Dest.value a) := by
  simp [Do, hresp, checkResponse, h2xx, hbody, jsonDecode]

/-- C7 (witness): a 204 response with empty body leaves the destination
string `"untouched"` unmodified and yields a nil error. -/
theorem Do_C7_empty_body_identity_witness :
    Do decId transport204 ctxLive reqBare (Dest.value "untouched") =
      (some (newResponse resp204), none, Dest.value "untouched") :=
  Do_C7_empty_body_identity decId transport204 ctxLive reqBare "untouched" resp204 rfl
    (by decide) rfl

/-- C9: when a static API token is configured, `AddAuthorization` sets the
`Authorization` header to exactly `"SSWS "` followed by the token (and
returns a nil error); with no token configured it is a no-op. -/
theorem AddAuthorization_C9 (c : Client) (req : Request) :
    (c.apiToken ≠ "" →
      AddAuthorization c req =
        ({ req with
            headers := headerSet req.headers "Authorization" ("SSWS " ++ c.apiToken) }, none)) ∧
    (c.apiToken = "" → AddAuthorization c req = (req, none)) ∧
    (c.apiToken ≠ "" →
      headerGet (AddAuthorization c req).1.headers "Authorization" =
        some ("SSWS " ++ c.apiToken)) := by
  refine ⟨?_, ?_, ?_⟩
  · intro h
    simp [AddAuthorization, h, sprintf1_ssws]
  · intro h
    simp [AddAuthorization, h]
  · intro h
    simp [AddAuthorization, h, sprintf1_ssws, headerGet_headerSet_self]

/-- C9 (witness): the `acme` client with token `tok123` sets
`Authorization: SSWS tok123` on the bare request. -/
theorem AddAuthorization_C9_witness :
    headerGet (AddAuthorization clientAcme reqBare).1.headers "Authorization" =
      some "SSWS tok123" :=
  (AddAuthorization_C9 clientAcme reqBare).2.2 (by decide)

/-- C10: a non-2xx response whose body read fails still yields a non-nil
`ErrorResponse`, but with `Code`, `Type` and `Message` left at their zero
values `0`, `""`, `""` (the `if err == nil && data != nil` guard skips
filling them). -/
theorem checkResponse_C10_zero_fields_on_read_failure (r : HttpResponse)
    (readSoFar e : String) (hstatus : ¬(200 ≤ r.statusCode ∧ r.statusCode ≤ 299))
    (hbody : r.body = .ioError readSoFar e) :
    checkResponse r =
      some (.errorResponse { response := r, code := 0, type := "", message := "" }) := by
  simp [checkResponse, if_neg hstatus, hbody]

/-- C10 (witness): the 404 response with a failed body read yields the
zero-field `ErrorResponse`. -/
theorem checkResponse_C10_zero_fields_on_read_failure_witness :
    checkResponse respBrokenNF =
      some (.errorResponse { response := respBrokenNF, code := 0, type := "", message := "" }) :=
  checkResponse_C10_zero_fields_on_read_failure respBrokenNF "" "read: connection reset"
    (by decide) rfl

end Okta
